import Mathlib

/-
  Verification of the spatial-index core of the 5g-availability-checker
  repository: a shallow embedding of src/utils.py, src/config.py,
  src/models.py and src/indexes.py, together with proofs about it.

  Modelling conventions:
  * Python float64 values are idealised as real numbers; IEEE rounding,
    overflow, infinities and NaN payloads are not modelled except where a
    claim is specifically about parsing (see PyFloat below).
  * numpy argsort/argpartition guarantee only an ordering contract; the
    embedding instantiates them with a deterministic stable sorted
    permutation, which is one admissible output.  Every theorem proved below
    is insensitive to which admissible permutation numpy actually produces,
    except where explicitly discussed (tie-breaking, which is left open).
-/

namespace FiveG

noncomputable section

/-! ## src/config.py: the Melbourne projection anchor -/

/-- Projection anchor latitude, config.py line 12. -/
def LAT0 : ℝ := -37.8136

/-- Projection anchor longitude, config.py line 13. -/
def LON0 : ℝ := 144.9631

/-! ## src/utils.py: projection and great-circle distance -/

/-- Degrees to radians, as Python's math.radians. -/
def radians (d : ℝ) : ℝ := d * (Real.pi / 180)

/-- utils.py: `_COS_LAT0 = math.cos(math.radians(LAT0))`. -/
def _COS_LAT0 : ℝ := Real.cos (radians LAT0)

/-- utils.py: `_KM_PER_DEG_LAT = 110.574`. -/
def _KM_PER_DEG_LAT : ℝ := 110.574

/-- utils.py: `_KM_PER_DEG_LON = 111.320 * _COS_LAT0`. -/
def _KM_PER_DEG_LON : ℝ := 111.320 * _COS_LAT0

/-- The x component of `to_xy_km` for a single longitude. -/
def toX (lon : ℝ) : ℝ := (lon - LON0) * _KM_PER_DEG_LON

/-- The y component of `to_xy_km` for a single latitude. -/
def toY (lat : ℝ) : ℝ := (lat - LAT0) * _KM_PER_DEG_LAT

/-- utils.py `to_xy_km(lat, lon)`: elementwise equirectangular projection of
    coordinate arrays (modelled as lists) into local planar kilometres. -/
def to_xy_km (lat lon : List ℝ) : List ℝ × List ℝ :=
  (lon.map toX, lat.map toY)

/-- utils.py `haversine_km(lat1, lon1, lat2, lon2)`: great-circle distance in
    kilometres with Earth radius 6371.0088. -/
def haversine_km (lat1 lon1 lat2 lon2 : ℝ) : ℝ :=
  let R : ℝ := 6371.0088
  let p : ℝ := Real.pi / 180
  let dlat : ℝ := (lat2 - lat1) * p
  let dlon : ℝ := (lon2 - lon1) * p
  let a : ℝ := Real.sin (dlat / 2) ^ 2 +
    Real.cos (lat1 * p) * Real.cos (lat2 * p) * Real.sin (dlon / 2) ^ 2
  2 * R * Real.arcsin (Real.sqrt a)

/-- The haversine "a" term, for reasoning about `haversine_km`. -/
def havA (lat1 lon1 lat2 lon2 : ℝ) : ℝ :=
  Real.sin ((lat2 - lat1) * (Real.pi / 180) / 2) ^ 2 +
    Real.cos (lat1 * (Real.pi / 180)) * Real.cos (lat2 * (Real.pi / 180)) *
      Real.sin ((lon2 - lon1) * (Real.pi / 180) / 2) ^ 2

/-! ## Python value parsing (models of Python builtins used by indexes.py) -/

/-- Python float values as producible by `float(str)`: a finite rational, an
    infinity, or NaN.  Models the IEEE float domain only as far as the load
    path of indexes.py observes it. -/
inductive PyFloat where
  | finite (q : ℚ)
  | inf
  | ninf
  | nan
  deriving DecidableEq

/-- Python's `str.strip` whitespace test (ASCII subset). -/
def pyIsSpace (c : Char) : Bool :=
  c == ' ' || c == '\t' || c == '\n' || c == '\r' || c == '\x0b' || c == '\x0c'

/-- Python `str.strip` on a character list. -/
def pyStripChars (l : List Char) : List Char :=
  ((l.dropWhile pyIsSpace).reverse.dropWhile pyIsSpace).reverse

/-- Python `str.strip` on a string. -/
def pyStrip (s : String) : String := String.mk (pyStripChars s.toList)

/-- Python `str.lower` (ASCII subset). -/
def pyLower (l : List Char) : List Char := l.map Char.toLower

/-- Split a character list at the first character satisfying `p`; returns the
    front part and, when a split character was found, the remainder after
    it. -/
def splitFirst (p : Char → Bool) : List Char → List Char × Option (List Char)
  | [] => ([], none)
  | c :: rest =>
    if p c then ([], some rest)
    else
      let s := splitFirst p rest
      (c :: s.1, s.2)

/-- Strip one leading sign character; returns (isNegative, remainder). -/
def pySign : List Char → Bool × List Char
  | '-' :: r => (true, r)
  | '+' :: r => (false, r)
  | l => (false, l)

/-- Numeric value of a digit list (most significant first). -/
def digitsToNat (l : List Char) : ℕ :=
  l.foldl (fun acc c => 10 * acc + (c.toNat - 48)) 0

/-- A nonempty all-digit list, as a natural number. -/
def parseDigits (l : List Char) : Option ℕ :=
  if l ≠ [] ∧ l.all Char.isDigit then some (digitsToNat l) else none

/-- The mantissa of a Python float literal: `digits`, `digits.digits`,
    `digits.`, or `.digits`. -/
def parseMantissa (l : List Char) : Option ℚ :=
  match splitFirst (fun c => c == '.') l with
  | (ip, none) => (parseDigits ip).map (fun n => (n : ℚ))
  | (ip, some fp) =>
    if (ip.all Char.isDigit ∧ fp.all Char.isDigit) ∧ (ip ≠ [] ∨ fp ≠ []) then
      some ((digitsToNat ip : ℚ) + (digitsToNat fp : ℚ) / (10 : ℚ) ^ fp.length)
    else none

/-- The exponent of a Python float literal: an optionally signed digit run. -/
def parseExponent (l : List Char) : Option ℤ :=
  let s := pySign l
  (parseDigits s.2).map (fun n => if s.1 then -(n : ℤ) else (n : ℤ))

/-- Python's `float(str)` builtin on a character list: optional surrounding
    whitespace, optional sign, then `inf`, `infinity` or `nan`
    (case-insensitive), or a decimal literal with optional exponent.
    (Underscore digit separators and the overflow of extreme exponents to an
    infinity are not modelled.) -/
def pyFloatOfChars (l0 : List Char) : Option PyFloat :=
  let l := pyLower (pyStripChars l0)
  let s := pySign l
  if s.2 = ['i', 'n', 'f'] ∨ s.2 = ['i', 'n', 'f', 'i', 'n', 'i', 't', 'y'] then
    some (if s.1 then PyFloat.ninf else PyFloat.inf)
  else if s.2 = ['n', 'a', 'n'] then some PyFloat.nan
  else
    match splitFirst (fun c => c == 'e') s.2 with
    | (m, none) =>
      (parseMantissa m).map (fun q => PyFloat.finite (if s.1 then -q else q))
    | (m, some ex) =>
      match parseMantissa m, parseExponent ex with
      | some q, some e =>
        some (PyFloat.finite ((if s.1 then -q else q) * (10 : ℚ) ^ e))
      | _, _ => none

/-- `float(row.get(col))` guarded by try/except: `None` (missing field) and
    unparsable strings both fail. -/
def pyFloat? (v : Option String) : Option PyFloat :=
  match v with
  | none => none
  | some s0 => pyFloatOfChars s0.toList

/-- The real value of a parsed float; the non-finite IEEE values are outside
    the idealised real-number model and are mapped to 0 (no claim proved in
    this file depends on the coordinates of rows loaded from `inf`/`nan`
    literals). -/
def PyFloat.toReal : PyFloat → ℝ
  | .finite q => (q : ℝ)
  | _ => 0

/-- Does the optional string parse as a FINITE float?  This is the inclusion
    test asserted by the specification (section 3 and P3); compare with
    `pyFloat?`, the test the code actually performs. -/
def parsesFinite (v : Option String) : Bool :=
  match pyFloat? v with
  | some (PyFloat.finite _) => true
  | _ => false

/-- indexes.py `ResultsIndex._parse_bool`: lenient truthy-string matcher. -/
def _parse_bool (v : Option String) : Bool :=
  match v with
  | none => false
  | some s0 =>
    let vv := String.mk (pyLower (pyStripChars s0.toList))
    (["true", "1", "yes", "y", "t"] : List String).contains vv

/-! ## Index states and loading (src/indexes.py) -/

/-- One csv.DictReader row: each named column is present or absent. -/
structure CsvRow where
  address : Option String
  lat : Option String
  lon : Option String
  eligible : Option String
  status_text : Option String
  latency_sec : Option String
  checked_at : Option String
  deriving DecidableEq

/-- The accepted form of one results.csv row, as accumulated by the row loop
    of `ResultsIndex.load` (indexes.py lines 45-60). -/
structure ResultRow where
  addr : String
  la : PyFloat
  lo : PyFloat
  elig : Bool
  status : String
  latency : String
  checked : String
  deriving DecidableEq

/-- The body of the `ResultsIndex.load` row loop: `none` when the row is
    skipped (`continue`), otherwise the accumulated fields. -/
def parseResultRow (row : CsvRow) : Option ResultRow :=
  let a := pyStrip (row.address.getD "")
  if a = "" then none
  else
    match pyFloat? row.lat, pyFloat? row.lon with
    | some la, some lo =>
      some { addr := a, la := la, lo := lo,
             elig := _parse_bool row.eligible,
             status := pyStrip (row.status_text.getD ""),
             latency := pyStrip (row.latency_sec.getD ""),
             checked := pyStrip (row.checked_at.getD "") }
    | _, _ => none

/-- The accepted form of one input.csv row (`InputIndex.load` row loop). -/
structure InputRow where
  addr : String
  la : PyFloat
  lo : PyFloat
  deriving DecidableEq

/-- The body of the `InputIndex.load` row loop. -/
def parseInputRow (row : CsvRow) : Option InputRow :=
  let a := pyStrip (row.address.getD "")
  if a = "" then none
  else
    match pyFloat? row.lat, pyFloat? row.lon with
    | some la, some lo => some { addr := a, la := la, lo := lo }
    | _, _ => none

/-- The row-acceptance check the load loops actually perform: non-empty
    stripped address, and both coordinates accepted by Python float() —
    finite or not. -/
def rowPasses (row : CsvRow) : Bool :=
  (pyStrip (row.address.getD "") != "") && (pyFloat? row.lat).isSome &&
    (pyFloat? row.lon).isSome

/-- A csv row with every column missing: dropped by the address check. -/
def rowEmpty : CsvRow :=
  { address := none, lat := none, lon := none, eligible := none,
    status_text := none, latency_sec := none, checked_at := none }

/-- The fields of a `ResultsIndex` object (indexes.py lines 14-25), minus the
    lock, which guards the state but carries no data. -/
structure ResultsIndexState where
  ready : Bool
  addr : List String
  lat : List ℝ
  lon : List ℝ
  x : List ℝ
  y : List ℝ
  elig : List Bool
  status : List String
  latency : List String
  checked_at : List String

/-- `ResultsIndex.__init__`: the empty, not-ready state. -/
def initResultsState : ResultsIndexState :=
  { ready := false, addr := [], lat := [], lon := [], x := [], y := [],
    elig := [], status := [], latency := [], checked_at := [] }

/-- `ResultsIndex.load(path)`.  The data source is `none` when
    `os.path.exists(path)` is false, otherwise the list of csv rows.  Note
    that a source yielding no valid rows only clears `ready` and keeps the
    previous arrays (indexes.py lines 63-65). -/
def ResultsIndex.load (st : ResultsIndexState) (src : Option (List CsvRow)) :
    ResultsIndexState :=
  match src with
  | none => initResultsState
  | some rows =>
    let parsed := rows.filterMap parseResultRow
    if parsed = [] then { st with ready := false }
    else
      let lats := parsed.map (fun r => r.la.toReal)
      let lons := parsed.map (fun r => r.lo.toReal)
      let xy := to_xy_km lats lons
      { ready := true,
        addr := parsed.map (fun r => r.addr),
        lat := lats, lon := lons, x := xy.1, y := xy.2,
        elig := parsed.map (fun r => r.elig),
        status := parsed.map (fun r => r.status),
        latency := parsed.map (fun r => r.latency),
        checked_at := parsed.map (fun r => r.checked) }

/-- The fields of an `InputIndex` object (indexes.py lines 110-117). -/
structure InputIndexState where
  ready : Bool
  addr : List String
  lat : List ℝ
  lon : List ℝ
  x : List ℝ
  y : List ℝ

/-- `InputIndex.__init__`: the empty, not-ready state. -/
def initInputState : InputIndexState :=
  { ready := false, addr := [], lat := [], lon := [], x := [], y := [] }

/-- `InputIndex.load(path)`: unlike `ResultsIndex.load`, a source yielding no
    valid rows resets the whole object via `self.__init__()`. -/
def InputIndex.load (_st : InputIndexState) (src : Option (List CsvRow)) :
    InputIndexState :=
  match src with
  | none => initInputState
  | some rows =>
    let parsed := rows.filterMap parseInputRow
    if parsed = [] then initInputState
    else
      let lats := parsed.map (fun r => r.la.toReal)
      let lons := parsed.map (fun r => r.lo.toReal)
      let xy := to_xy_km lats lons
      { ready := true,
        addr := parsed.map (fun r => r.addr),
        lat := lats, lon := lons, x := xy.1, y := xy.2 }

/-- Modelled from the spec: `is_ready()` (spec section 6); the code exposes
    the `ready` attribute directly (app.py reads `results_index.ready`). -/
def ResultsIndexState.is_ready (st : ResultsIndexState) : Bool := st.ready

/-- Modelled from the spec: `row_count()` (spec section 6); the code reads
    `len(results_index.addr)` (app.py line 369). -/
def ResultsIndexState.row_count (st : ResultsIndexState) : ℕ := st.addr.length

/-- Modelled from the spec: `eligible_count()` (spec section 6); the code
    computes `sum(results_index.elig)` (app.py line 370). -/
def ResultsIndexState.eligible_count (st : ResultsIndexState) : ℕ :=
  st.elig.count true

/-- Modelled from the spec: `is_ready()` for the input index. -/
def InputIndexState.is_ready (st : InputIndexState) : Bool := st.ready

/-- Modelled from the spec: `row_count()` for the input index. -/
def InputIndexState.row_count (st : InputIndexState) : ℕ := st.addr.length

/-! ## The numpy operations used by the query paths

    `np.argsort` and `np.argpartition` promise only an ordering contract:
    argsort returns a permutation placing the keys in non-decreasing order
    (the order of equal keys under the default quicksort is implementation
    defined), and argpartition returns a permutation whose position `kth` is
    in its sorted place, smaller-or-equal keys before it and larger-or-equal
    keys after it.  The model instantiates both with the deterministic stable
    sorted permutation, an admissible output of either; every theorem below
    is insensitive to which admissible permutation is produced. -/

/-- `np.where(bs)[0]`: the indices of the true entries, ascending. -/
def whereTrue (bs : List Bool) : List ℕ :=
  (List.range bs.length).filter (fun i => bs.getD i false)

/-- Insert index `i` into an index list sorted by `key`, before the first
    strictly larger key. -/
def insertByKey (key : ℕ → ℝ) (i : ℕ) : List ℕ → List ℕ
  | [] => [i]
  | j :: rest =>
    if key i ≤ key j then i :: j :: rest else j :: insertByKey key i rest

/-- Insertion sort of an index list by `key` (stable). -/
def sortByKey (key : ℕ → ℝ) : List ℕ → List ℕ
  | [] => []
  | i :: rest => insertByKey key i (sortByKey key rest)

/-- Model of `np.argsort(keys)`: a permutation of `range keys.length` whose
    keys are non-decreasing. -/
def argsort (keys : List ℝ) : List ℕ :=
  sortByKey (fun i => keys.getD i 0) (List.range keys.length)

/-- Model of `np.argpartition(keys, kth)`: numpy normalises a negative `kth`
    by adding the length and raises `ValueError: kth out of bounds` when the
    result is still out of range; otherwise it returns a permutation
    partitioned around position `kth` (here: the sorted permutation). -/
def argpartition (keys : List ℝ) (kth : ℤ) : Except String (List ℕ) :=
  let n : ℤ := keys.length
  let kthN : ℤ := if kth < 0 then kth + n else kth
  if 0 ≤ kthN ∧ kthN < n then Except.ok (argsort keys)
  else Except.error "kth out of bounds"

/-- Python slicing `l[:k]`, including the negative-`k` meaning "all but the
    last `-k` elements". -/
def pySlice {α : Type} (l : List α) (k : ℤ) : List α :=
  if k < 0 then l.take (l.length + k).toNat else l.take k.toNat

/-! ## Query paths (src/indexes.py) -/

/-- One element of the list returned by `ResultsIndex.nearest_eligible`
    (the dict built at indexes.py lines 92-103). -/
structure EligRecord where
  addr : String
  lat : ℝ
  lon : ℝ
  eligible : Bool
  status_text : String
  latency_sec : String
  checked_at : String
  distance_km : ℝ

/-- The record built for chosen row `i` (indexes.py lines 92-103): raw row
    fields, `eligible: True`, and the exact haversine distance. -/
def mkEligRecord (st : ResultsIndexState) (qlat qlon : ℝ) (i : ℕ) :
    EligRecord :=
  { addr := st.addr.getD i "",
    lat := st.lat.getD i 0,
    lon := st.lon.getD i 0,
    eligible := true,
    status_text := st.status.getD i "",
    latency_sec := st.latency.getD i "",
    checked_at := st.checked_at.getD i "",
    distance_km := haversine_km qlat qlon (st.lat.getD i 0) (st.lon.getD i 0) }

/-- `ResultsIndex.nearest_eligible(lat, lon, k)` (indexes.py lines 76-104).
    The `Except` result models the possibility of an uncaught numpy
    `ValueError` escaping from `np.argpartition`. -/
def ResultsIndex.nearest_eligible (st : ResultsIndexState) (lat lon : ℝ)
    (k : ℤ) : Except String (List EligRecord) :=
  if st.ready = false ∨ st.addr.length = 0 then Except.ok []
  else
    let t := to_xy_km [lat] [lon]
    let tx := t.1.getD 0 0
    let ty := t.2.getD 0 0
    let d2 := List.zipWith (fun xi yi => (xi - tx) ^ 2 + (yi - ty) ^ 2) st.x st.y
    let idx := whereTrue st.elig
    if idx.length = 0 then Except.ok []
    else
      let k2 : ℤ := min k (idx.length : ℤ)
      let sub := idx.map (fun i => d2.getD i 0)
      match argpartition sub (k2 - 1) with
      | Except.error e => Except.error e
      | Except.ok perm =>
        let part := pySlice perm k2
        let order := argsort (part.map (fun j => sub.getD j 0))
        let choose := (order.map (fun j => part.getD j 0)).map
          (fun j => idx.getD j 0)
        Except.ok (choose.map (mkEligRecord st lat lon))

/-- models.py `MapPoint`. -/
structure MapPoint where
  addr : String
  lat : ℝ
  lon : ℝ

/-- `InputIndex.nearest(lat, lon, k)` (indexes.py lines 150-161).  Here
    `k <= 0` is caught before any numpy call, so no error can escape; the
    argpartition error branch is unreachable (1 ≤ k2 ≤ len(d2) there). -/
def InputIndex.nearest (st : InputIndexState) (lat lon : ℝ) (k : ℤ) :
    List MapPoint :=
  if st.ready = false ∨ st.addr = [] then []
  else
    let t := to_xy_km [lat] [lon]
    let tx := t.1.getD 0 0
    let ty := t.2.getD 0 0
    let d2 := List.zipWith (fun xi yi => (xi - tx) ^ 2 + (yi - ty) ^ 2) st.x st.y
    let k2 : ℤ := min k (d2.length : ℤ)
    if k2 ≤ 0 then []
    else
      match argpartition d2 (k2 - 1) with
      | Except.error _ => []
      | Except.ok perm =>
        let idxk := pySlice perm k2
        let idxk2 := (argsort (idxk.map (fun j => d2.getD j 0))).map
          (fun j => idxk.getD j 0)
        idxk2.map (fun i =>
          MapPoint.mk (st.addr.getD i "") (st.lat.getD i 0) (st.lon.getD i 0))

/-- The planar squared distance the query path associates with row `i` of a
    state: `(x[i] - tx)^2 + (y[i] - ty)^2`. -/
def d2At (st : ResultsIndexState) (lat lon : ℝ) (i : ℕ) : ℝ :=
  (st.x.getD i 0 - toX lon) ^ 2 + (st.y.getD i 0 - toY lat) ^ 2

/-- app.py line 496 (`websocket_fromdata`): the `distance_km` field sent over
    the websocket is `round(float(item["distance_km"]), 3)`.  Python's
    banker's rounding and ordinary rounding agree except at exact half-way
    points, which do not arise in any statement below. -/
def pyRound3 (v : ℝ) : ℝ := (round (v * 1000) : ℤ) / 1000

/-- app.py line 496: the serialised distance field. -/
def websocket_distance_field (item : EligRecord) : ℝ := pyRound3 item.distance_km

/-! ## Concrete states used for witnesses and counterexamples

    Row A sits on the equator 100 degrees of longitude east of the origin,
    row B 85 degrees of latitude north of it.  Under the planar projection
    (longitude compressed by cos of the Melbourne anchor latitude) A is
    closer to (0,0); by great-circle distance B is closer. -/

/-- A results.csv row: equator point 100 degrees east. -/
def rowA : CsvRow :=
  { address := some "A", lat := some "0", lon := some "100",
    eligible := some "true", status_text := some "ok",
    latency_sec := some "1.0", checked_at := some "t1" }

/-- A results.csv row: 85 degrees north on the target meridian. -/
def rowB : CsvRow :=
  { address := some "B", lat := some "85", lon := some "0",
    eligible := some "true", status_text := some "ok",
    latency_sec := some "1.0", checked_at := some "t2" }

/-- A results.csv row: equator point 60 degrees east. -/
def rowD : CsvRow :=
  { address := some "D", lat := some "0", lon := some "60",
    eligible := some "true", status_text := some "ok",
    latency_sec := some "1.0", checked_at := some "t3" }

/-- A results.csv row whose latitude is the string "inf": Python's float()
    accepts it, so the code loads this row. -/
def rowInf : CsvRow :=
  { address := some "Inf Street 1", lat := some "inf", lon := some "0",
    eligible := some "true", status_text := none,
    latency_sec := none, checked_at := none }

/-- The two-row example results index. -/
def exSt : ResultsIndexState := ResultsIndex.load initResultsState (some [rowA, rowB])

/-- The one-row example results index used for the distance-field claim. -/
def exSt6 : ResultsIndexState := ResultsIndex.load initResultsState (some [rowD])

/-- The two-row example input index. -/
def exStI : InputIndexState := InputIndex.load initInputState (some [rowA, rowB])

/-- The explicit value of `exSt`. -/
def stA : ResultsIndexState :=
  { ready := true, addr := ["A", "B"],
    lat := [(0 : ℝ), 85], lon := [(100 : ℝ), 0],
    x := [toX 100, toX 0], y := [toY 0, toY 85],
    elig := [true, true], status := ["ok", "ok"], latency := ["1.0", "1.0"],
    checked_at := ["t1", "t2"] }

/-- The explicit value of `exSt6`. -/
def stD : ResultsIndexState :=
  { ready := true, addr := ["D"],
    lat := [(0 : ℝ)], lon := [(60 : ℝ)],
    x := [toX 60], y := [toY 0],
    elig := [true], status := ["ok"], latency := ["1.0"],
    checked_at := ["t3"] }

/-- The explicit value of `exStI`. -/
def stAI : InputIndexState :=
  { ready := true, addr := ["A", "B"],
    lat := [(0 : ℝ), 85], lon := [(100 : ℝ), 0],
    x := [toX 100, toX 0], y := [toY 0, toY 85] }

/-! ## Library lemmas about the geometry -/

lemma haversine_km_eq (lat1 lon1 lat2 lon2 : ℝ) :
    haversine_km lat1 lon1 lat2 lon2 =
      2 * 6371.0088 * Real.arcsin (Real.sqrt (havA lat1 lon1 lat2 lon2)) := rfl

lemma havA_symm (lat1 lon1 lat2 lon2 : ℝ) :
    havA lat2 lon2 lat1 lon1 = havA lat1 lon1 lat2 lon2 := by
  unfold havA
  have h1 : (lat1 - lat2) * (Real.pi / 180) / 2 =
      -((lat2 - lat1) * (Real.pi / 180) / 2) := by ring
  have h2 : (lon1 - lon2) * (Real.pi / 180) / 2 =
      -((lon2 - lon1) * (Real.pi / 180) / 2) := by ring
  rw [h1, h2, Real.sin_neg, Real.sin_neg]
  ring

/-- Numeric bounds on the longitude compression factor
    `cos(radians(-37.8136))`: positive and at most 0.7922. -/
lemma cosLAT0_pos_and_le : 0 < _COS_LAT0 ∧ _COS_LAT0 ≤ 0.7922 := by
  have hpi1 : (3.141592 : ℝ) < Real.pi := Real.pi_gt_d6
  have hpi2 : Real.pi < 3.1416 := Real.pi_lt_d4
  have hval : radians LAT0 = -(37.8136 * (Real.pi / 180)) := by
    rw [show radians LAT0 = -37.8136 * (Real.pi / 180) from rfl]
    ring
  have hpos : (0 : ℝ) < 37.8136 * (Real.pi / 180) := by
    nlinarith [Real.pi_pos]
  have habs : |radians LAT0| = 37.8136 * (Real.pi / 180) := by
    rw [hval, abs_neg, abs_of_pos hpos]
  have hub : 37.8136 * (Real.pi / 180) ≤ 0.66001 := by nlinarith
  have hlb : (0.6599 : ℝ) ≤ 37.8136 * (Real.pi / 180) := by nlinarith
  have h1 : |radians LAT0| ≤ 1 := by
    rw [habs]
    linarith
  constructor
  · exact Real.cos_pos_of_le_one h1
  · have hcb := Real.cos_bound h1
    have h2 := (abs_sub_le_iff.1 hcb).1
    have hx2 : radians LAT0 ^ 2 = (37.8136 * (Real.pi / 180)) ^ 2 := by
      rw [hval]
      ring
    have hsq : (0.6599 : ℝ) ^ 2 ≤ radians LAT0 ^ 2 := by
      rw [hx2]
      exact pow_le_pow_left₀ (by norm_num) hlb 2
    have h4 : |radians LAT0| ^ 4 ≤ (0.66001 : ℝ) ^ 4 := by
      rw [habs]
      exact pow_le_pow_left₀ hpos.le hub 4
    show Real.cos (radians LAT0) ≤ 0.7922
    nlinarith [h2, hsq, h4]

/-- Under the planar projection, the equator point 100 degrees east is
    strictly closer to the origin target than the point 85 degrees north:
    longitude degrees are compressed by `_COS_LAT0 ≤ 0.7922`. -/
lemma planar_A_lt_B :
    (toX 100 - toX 0) ^ 2 + (toY 0 - toY 0) ^ 2 <
      (toX 0 - toX 0) ^ 2 + (toY 85 - toY 0) ^ 2 := by
  rcases cosLAT0_pos_and_le with ⟨hc0, hc1⟩
  have hA : toX 100 - toX 0 = 100 * (111.320 * _COS_LAT0) := by
    unfold toX _KM_PER_DEG_LON
    ring
  have hB : toY 85 - toY 0 = 85 * 110.574 := by
    unfold toY _KM_PER_DEG_LAT
    ring
  have h0x : toX 0 - toX 0 = 0 := by ring
  have h0y : toY 0 - toY 0 = 0 := by ring
  rw [hA, hB, h0x, h0y]
  nlinarith [mul_nonneg (sub_nonneg.2 hc1) hc0.le]

/-- Great-circle distance from the origin to the equator point `d` degrees
    east: exactly `2 R (d/2) (pi/180)` for `0 ≤ d ≤ 180`. -/
lemma hav_equator_east (d : ℝ) (h0 : 0 ≤ d) (h1 : d ≤ 180) :
    haversine_km 0 0 0 d = 2 * 6371.0088 * (d / 2 * (Real.pi / 180)) := by
  have hpi := Real.pi_pos
  have ha : havA 0 0 0 d = Real.sin (d / 2 * (Real.pi / 180)) ^ 2 := by
    unfold havA
    rw [show ((0 : ℝ) - 0) * (Real.pi / 180) / 2 = 0 by ring,
      show ((d : ℝ) - 0) * (Real.pi / 180) / 2 = d / 2 * (Real.pi / 180) by ring,
      show ((0 : ℝ) * (Real.pi / 180)) = 0 by ring]
    rw [Real.sin_zero, Real.cos_zero]
    ring
  have hrange1 : 0 ≤ d / 2 * (Real.pi / 180) := by positivity
  have hrange2 : d / 2 * (Real.pi / 180) ≤ Real.pi / 2 := by nlinarith
  have hsin : 0 ≤ Real.sin (d / 2 * (Real.pi / 180)) :=
    Real.sin_nonneg_of_nonneg_of_le_pi hrange1 (by nlinarith)
  rw [haversine_km_eq, ha, Real.sqrt_sq hsin,
    Real.arcsin_sin (by nlinarith) hrange2]

/-- Great-circle distance from the origin to the point `d` degrees north on
    the same meridian: exactly `2 R (d/2) (pi/180)` for `0 ≤ d ≤ 180`. -/
lemma hav_north (d : ℝ) (h0 : 0 ≤ d) (h1 : d ≤ 180) :
    haversine_km 0 0 d 0 = 2 * 6371.0088 * (d / 2 * (Real.pi / 180)) := by
  have hpi := Real.pi_pos
  have ha : havA 0 0 d 0 = Real.sin (d / 2 * (Real.pi / 180)) ^ 2 := by
    unfold havA
    rw [show ((d : ℝ) - 0) * (Real.pi / 180) / 2 = d / 2 * (Real.pi / 180) by ring,
      show ((0 : ℝ) - 0) * (Real.pi / 180) / 2 = 0 by ring]
    rw [Real.sin_zero]
    ring
  have hrange1 : 0 ≤ d / 2 * (Real.pi / 180) := by positivity
  have hrange2 : d / 2 * (Real.pi / 180) ≤ Real.pi / 2 := by nlinarith
  have hsin : 0 ≤ Real.sin (d / 2 * (Real.pi / 180)) :=
    Real.sin_nonneg_of_nonneg_of_le_pi hrange1 (by nlinarith)
  rw [haversine_km_eq, ha, Real.sqrt_sq hsin,
    Real.arcsin_sin (by nlinarith) hrange2]

/-! ## Evaluation of the example loads -/

lemma exSt_eq : exSt = stA := by
  have hp : [rowA, rowB].filterMap parseResultRow =
      [{ addr := "A", la := PyFloat.finite 0, lo := PyFloat.finite 100,
         elig := true, status := "ok", latency := "1.0", checked := "t1" },
       { addr := "B", la := PyFloat.finite 85, lo := PyFloat.finite 0,
         elig := true, status := "ok", latency := "1.0", checked := "t2" }] := by
    decide
  unfold exSt
  simp only [ResultsIndex.load, hp]
  norm_num [stA, to_xy_km, PyFloat.toReal]
  simp

lemma exSt6_eq : exSt6 = stD := by
  have hp : [rowD].filterMap parseResultRow =
      [{ addr := "D", la := PyFloat.finite 0, lo := PyFloat.finite 60,
         elig := true, status := "ok", latency := "1.0", checked := "t3" }] := by
    decide
  unfold exSt6
  simp only [ResultsIndex.load, hp]
  norm_num [stD, to_xy_km, PyFloat.toReal]

lemma exStI_eq : exStI = stAI := by
  have hp : [rowA, rowB].filterMap parseInputRow =
      [{ addr := "A", la := PyFloat.finite 0, lo := PyFloat.finite 100 },
       { addr := "B", la := PyFloat.finite 85, lo := PyFloat.finite 0 }] := by
    decide
  unfold exStI
  simp only [InputIndex.load, hp]
  norm_num [stAI, to_xy_km, PyFloat.toReal]
  simp

/-! ## Library lemmas about the numpy model -/

lemma length_insertByKey (key : ℕ → ℝ) (i : ℕ) (l : List ℕ) :
    (insertByKey key i l).length = l.length + 1 := by
  induction l with
  | nil => rfl
  | cons j rest ih =>
    unfold insertByKey
    by_cases h : key i ≤ key j
    · simp [h]
    · simp [h, ih]

lemma length_sortByKey (key : ℕ → ℝ) (l : List ℕ) :
    (sortByKey key l).length = l.length := by
  induction l with
  | nil => rfl
  | cons i rest ih => simp [sortByKey, length_insertByKey, ih]

lemma mem_insertByKey {key : ℕ → ℝ} {i a : ℕ} {l : List ℕ} :
    a ∈ insertByKey key i l ↔ a = i ∨ a ∈ l := by
  induction l with
  | nil => simp [insertByKey]
  | cons j rest ih =>
    unfold insertByKey
    by_cases h : key i ≤ key j
    · rw [if_pos h, List.mem_cons]
    · rw [if_neg h, List.mem_cons, List.mem_cons, ih]
      tauto

lemma mem_sortByKey {key : ℕ → ℝ} {a : ℕ} {l : List ℕ} :
    a ∈ sortByKey key l ↔ a ∈ l := by
  induction l with
  | nil => simp [sortByKey]
  | cons i rest ih => simp [sortByKey, mem_insertByKey, ih]

lemma pairwise_insertByKey (key : ℕ → ℝ) (i : ℕ) {l : List ℕ}
    (h : l.Pairwise (fun a b => key a ≤ key b)) :
    (insertByKey key i l).Pairwise (fun a b => key a ≤ key b) := by
  induction l with
  | nil => simp [insertByKey]
  | cons j rest ih =>
    rcases List.pairwise_cons.1 h with ⟨hj, hrest⟩
    unfold insertByKey
    by_cases hk : key i ≤ key j
    · rw [if_pos hk]
      refine List.pairwise_cons.2 ⟨?_, h⟩
      intro b hb
      rcases List.mem_cons.1 hb with rfl | hb
      · exact hk
      · exact le_trans hk (hj b hb)
    · rw [if_neg hk]
      refine List.pairwise_cons.2 ⟨?_, ih hrest⟩
      intro b hb
      rcases mem_insertByKey.1 hb with rfl | hb
      · exact le_of_not_le hk
      · exact hj b hb

lemma pairwise_sortByKey (key : ℕ → ℝ) (l : List ℕ) :
    (sortByKey key l).Pairwise (fun a b => key a ≤ key b) := by
  induction l with
  | nil => simp [sortByKey]
  | cons i rest ih => exact pairwise_insertByKey key i ih

lemma length_argsort (keys : List ℝ) : (argsort keys).length = keys.length := by
  simp [argsort, length_sortByKey]

lemma mem_argsort {keys : List ℝ} {i : ℕ} :
    i ∈ argsort keys ↔ i < keys.length := by
  simp [argsort, mem_sortByKey]

lemma pairwise_argsort (keys : List ℝ) :
    (argsort keys).Pairwise (fun a b => keys.getD a 0 ≤ keys.getD b 0) :=
  pairwise_sortByKey _ _

lemma argpartition_ok {keys : List ℝ} {kth : ℤ}
    (h : 0 ≤ (if kth < 0 then kth + keys.length else kth) ∧
         (if kth < 0 then kth + keys.length else kth) < keys.length) :
    argpartition keys kth = Except.ok (argsort keys) := by
  simp only [argpartition]
  rw [if_pos h]

lemma argpartition_error {keys : List ℝ} {kth : ℤ}
    (h : ¬(0 ≤ (if kth < 0 then kth + keys.length else kth) ∧
           (if kth < 0 then kth + keys.length else kth) < keys.length)) :
    argpartition keys kth = Except.error "kth out of bounds" := by
  simp only [argpartition]
  rw [if_neg h]

lemma length_pySlice {α : Type} (l : List α) (k : ℤ) :
    (pySlice l k).length =
      if k < 0 then (l.length + k).toNat else min k.toNat l.length := by
  unfold pySlice
  by_cases h : k < 0
  · rw [if_pos h, if_pos h]
    have hb : ((l.length : ℤ) + k).toNat ≤ l.length := by omega
    simp [List.length_take]
    omega
  · rw [if_neg h, if_neg h]
    simp [List.length_take]

lemma mem_pySlice {α : Type} {l : List α} {k : ℤ} {a : α}
    (h : a ∈ pySlice l k) : a ∈ l := by
  unfold pySlice at h
  by_cases hk : k < 0
  · rw [if_pos hk] at h
    exact List.mem_of_mem_take h
  · rw [if_neg hk] at h
    exact List.mem_of_mem_take h

lemma length_whereTrue (bs : List Bool) :
    (whereTrue bs).length = bs.count true := by
  unfold whereTrue
  induction bs with
  | nil => rfl
  | cons b t ih =>
    rw [List.count_cons]
    have hr : List.range (t.length + 1) = 0 :: (List.range t.length).map (· + 1) :=
      List.range_succ_eq_map t.length
    have hmap : ((List.range t.length).map (· + 1)).filter
        (fun i => (b :: t).getD i false) =
        ((List.range t.length).filter (fun i => t.getD i false)).map (· + 1) := by
      rw [List.filter_map]
      rfl
    rw [List.length_cons, hr, List.filter_cons]
    by_cases hb : b = true
    · subst hb
      rw [if_pos (show (fun i => ((true :: t).getD i false)) 0 = true from rfl),
        List.length_cons, hmap, List.length_map, ih]
      simp
    · have hb' : b = false := by simpa using hb
      subst hb'
      rw [if_neg (show ¬((fun i => ((false :: t).getD i false)) 0 = true) by
          simp [List.getD]),
        hmap, List.length_map, ih]
      simp

lemma mem_whereTrue {bs : List Bool} {i : ℕ} :
    i ∈ whereTrue bs ↔ i < bs.length ∧ bs.getD i false = true := by
  unfold whereTrue
  simp [List.mem_filter, List.mem_range]

lemma getD_map_lt {α β : Type} (f : α → β) {l : List α} {i : ℕ}
    (h : i < l.length) (d : β) (d' : α) :
    (l.map f).getD i d = f (l.getD i d') := by
  have h2 : i < (l.map f).length := by simpa using h
  rw [List.getD_eq_getElem _ _ h2, List.getD_eq_getElem _ _ h]
  simp

lemma getD_mem {α : Type} {l : List α} {i : ℕ} (h : i < l.length) (d : α) :
    l.getD i d ∈ l := by
  rw [List.getD_eq_getElem _ _ h]
  exact List.getElem_mem h

/-! ## Characterization lemmas for the query paths -/

lemma txy_fst (lat lon : ℝ) : (to_xy_km [lat] [lon]).1.getD 0 0 = toX lon := rfl

lemma txy_snd (lat lon : ℝ) : (to_xy_km [lat] [lon]).2.getD 0 0 = toY lat := rfl

lemma argpartition_eq_ok {keys : List ℝ} {kth : ℤ} {perm : List ℕ}
    (h : argpartition keys kth = Except.ok perm) : perm = argsort keys := by
  unfold argpartition at h
  by_cases hc : 0 ≤ (if kth < 0 then kth + (keys.length : ℤ) else kth) ∧
      (if kth < 0 then kth + (keys.length : ℤ) else kth) < (keys.length : ℤ)
  · rw [if_pos hc] at h
    cases h
    rfl
  · rw [if_neg hc] at h
    cases h

lemma pairwise_of_imp_mem {α : Type} {R S : α → α → Prop} {l : List α}
    (H : ∀ a b, a ∈ l → b ∈ l → R a b → S a b) (p : l.Pairwise R) :
    l.Pairwise S := by
  induction l with
  | nil => exact List.Pairwise.nil
  | cons a t ih =>
    rcases List.pairwise_cons.1 p with ⟨ha, ht⟩
    refine List.pairwise_cons.2 ⟨?_, ?_⟩
    · intro b hb
      exact H a b (List.mem_cons_self a t) (List.mem_cons_of_mem _ hb) (ha b hb)
    · exact ih (fun x y hx hy => H x y (List.mem_cons_of_mem _ hx)
        (List.mem_cons_of_mem _ hy)) ht

/-- Every index chosen by the tail of the query pipeline
    (`idx[part[np.argsort(sub[part])]]`) is an element of `idx`. -/
lemma pick_mem {d2 : List ℝ} {idx part : List ℕ}
    (hpart : ∀ m ∈ part, m < idx.length) {c : ℕ}
    (hc : c ∈ ((argsort (part.map (fun j =>
        (idx.map (fun i => d2.getD i 0)).getD j 0))).map
        (fun j => part.getD j 0)).map (fun j => idx.getD j 0)) :
    c ∈ idx := by
  rcases List.mem_map.1 hc with ⟨j1, hj1, rfl⟩
  rcases List.mem_map.1 hj1 with ⟨j, hj, rfl⟩
  have hjlt : j < part.length := by
    have h := mem_argsort.1 hj
    simpa using h
  exact getD_mem (hpart _ (getD_mem hjlt 0)) 0

/-- The tail of the query pipeline returns indices whose `d2` keys are
    non-decreasing. -/
lemma pick_pairwise {d2 : List ℝ} {idx part : List ℕ}
    (hpart : ∀ m ∈ part, m < idx.length) :
    (((argsort (part.map (fun j =>
        (idx.map (fun i => d2.getD i 0)).getD j 0))).map
        (fun j => part.getD j 0)).map (fun j => idx.getD j 0)).Pairwise
      (fun a b => d2.getD a 0 ≤ d2.getD b 0) := by
  rw [List.pairwise_map, List.pairwise_map]
  have hp := pairwise_argsort (part.map (fun j =>
      (idx.map (fun i => d2.getD i 0)).getD j 0))
  refine pairwise_of_imp_mem ?_ hp
  intro a b ha hb hab
  have halt : a < part.length := by simpa using mem_argsort.1 ha
  have hblt : b < part.length := by simpa using mem_argsort.1 hb
  have ea : (part.map (fun j => (idx.map (fun i => d2.getD i 0)).getD j 0)).getD a 0
      = d2.getD (idx.getD (part.getD a 0) 0) 0 := by
    rw [getD_map_lt _ halt _ 0]
    exact getD_map_lt _ (hpart _ (getD_mem halt 0)) _ 0
  have eb : (part.map (fun j => (idx.map (fun i => d2.getD i 0)).getD j 0)).getD b 0
      = d2.getD (idx.getD (part.getD b 0) 0) 0 := by
    rw [getD_map_lt _ hblt _ 0]
    exact getD_map_lt _ (hpart _ (getD_mem hblt 0)) _ 0
  rw [ea, eb] at hab
  exact hab

/-- The length of the list the tail of the query pipeline returns. -/
lemma pick_length (d2 : List ℝ) (idx part : List ℕ) :
    (((argsort (part.map (fun j =>
        (idx.map (fun i => d2.getD i 0)).getD j 0))).map
        (fun j => part.getD j 0)).map (fun j => idx.getD j 0)).length =
      part.length := by
  rw [List.length_map, List.length_map, length_argsort, List.length_map]

/-- On indices below every array length, the query's zipWith distance list
    evaluates to `d2At`. -/
lemma getD_d2_eq_d2At {st : ResultsIndexState} {lat lon : ℝ} {i : ℕ}
    (hix : i < st.x.length) (hiy : i < st.y.length) :
    (List.zipWith (fun xi yi => (xi - toX lon) ^ 2 + (yi - toY lat) ^ 2)
      st.x st.y).getD i 0 = d2At st lat lon i := by
  have hlen : i < (List.zipWith (fun xi yi =>
      (xi - toX lon) ^ 2 + (yi - toY lat) ^ 2) st.x st.y).length := by
    rw [List.length_zipWith]
    omega
  rw [List.getD_eq_getElem _ _ hlen, List.getElem_zipWith,
    d2At, List.getD_eq_getElem _ _ hix, List.getD_eq_getElem _ _ hiy]

/-! ## Claim theorems C9 and C10 -/

/-- C9: the planar projection is the fixed-anchor equirectangular formula
    `x = (lon - LON0) * (111.320 * cos(radians(LAT0)))`,
    `y = (lat - LAT0) * 110.574`, with the anchor constants fixed process-wide
    (the module-level constants `_KM_PER_DEG_LON` / `_KM_PER_DEG_LAT` used by
    every call), and it is a pure deterministic function: calling it twice on
    the same input yields identical output. -/
theorem C9_projection_formula_and_determinism :
    (∀ lat lon : List ℝ,
      to_xy_km lat lon =
        (lon.map (fun lo => (lo - LON0) * (111.320 * Real.cos (radians LAT0))),
         lat.map (fun la => (la - LAT0) * 110.574))) ∧
    (∀ lat lon : List ℝ, to_xy_km lat lon = to_xy_km lat lon) ∧
    (_KM_PER_DEG_LON = 111.320 * Real.cos (radians LAT0) ∧
      _KM_PER_DEG_LAT = 110.574) := by
  refine ⟨fun lat lon => rfl, fun lat lon => rfl, rfl, rfl⟩

lemma argpartition_ok_of_len {keys : List ℝ} {kth : ℤ} {e : ℕ}
    (hlen : keys.length = e)
    (h : 0 ≤ (if kth < 0 then kth + (e : ℤ) else kth) ∧
         (if kth < 0 then kth + (e : ℤ) else kth) < (e : ℤ)) :
    argpartition keys kth = Except.ok (argsort keys) := by
  subst hlen
  exact argpartition_ok h

lemma argpartition_cond_of_nonneg {e : ℕ} (he : 1 ≤ e) {k : ℤ} (hk : 0 ≤ k) :
    0 ≤ (if min k (e : ℤ) - 1 < 0 then min k (e : ℤ) - 1 + (e : ℤ)
          else min k (e : ℤ) - 1) ∧
      (if min k (e : ℤ) - 1 < 0 then min k (e : ℤ) - 1 + (e : ℤ)
          else min k (e : ℤ) - 1) < (e : ℤ) := by
  by_cases hc : min k (e : ℤ) - 1 < 0
  · rw [if_pos hc]
    omega
  · rw [if_neg hc]
    omega

lemma argpartition_error_of_len {keys : List ℝ} {kth : ℤ} {e : ℕ}
    (hlen : keys.length = e)
    (h : ¬(0 ≤ (if kth < 0 then kth + (e : ℤ) else kth) ∧
           (if kth < 0 then kth + (e : ℤ) else kth) < (e : ℤ))) :
    argpartition keys kth = Except.error "kth out of bounds" := by
  subst hlen
  exact argpartition_error h

/-- C2 (amended): a negative k is not rejected as a programmer error.
    `InputIndex.nearest` returns the empty list (indistinguishable from the
    no-data result), and `ResultsIndex.nearest_eligible` applies numpy's
    negative-index semantics: with e ≥ 1 eligible rows it silently returns
    e + k data rows when -e < k < 0, and only when k ≤ -e does a numpy
    ValueError escape. -/
theorem C2_negative_k_not_failfast (stR : ResultsIndexState)
    (stI : InputIndexState) (lat lon : ℝ) (k : ℤ) (hk : k < 0) :
    InputIndex.nearest stI lat lon k = [] ∧
    (stR.ready = true → stR.addr.length ≠ 0 → 1 ≤ stR.eligible_count →
      (-(stR.eligible_count : ℤ) < k →
        ∃ recs, ResultsIndex.nearest_eligible stR lat lon k = Except.ok recs ∧
          recs.length = ((stR.eligible_count : ℤ) + k).toNat) ∧
      (k ≤ -(stR.eligible_count : ℤ) →
        ResultsIndex.nearest_eligible stR lat lon k =
          Except.error "kth out of bounds")) := by
  constructor
  · simp only [InputIndex.nearest, txy_fst, txy_snd]
    by_cases h1 : stI.ready = false ∨ stI.addr = []
    · rw [if_pos h1]
    · rw [if_neg h1]
      rw [if_pos (le_trans (min_le_left _ _) (le_of_lt hk))]
  · intro hready haddr helig
    have h1 : ¬(stR.ready = false ∨ stR.addr.length = 0) := by
      intro h
      rcases h with h | h
      · rw [hready] at h
        cases h
      · exact haddr h
    have hE : 1 ≤ (whereTrue stR.elig).length := by
      rw [length_whereTrue]
      exact helig
    have h2 : ¬((whereTrue stR.elig).length = 0) := by omega
    have hcount : (whereTrue stR.elig).length = stR.eligible_count :=
      length_whereTrue stR.elig
    have hmin : min k ((whereTrue stR.elig).length : ℤ) = k :=
      min_eq_left (by omega)
    constructor
    · intro hgt
      simp only [ResultsIndex.nearest_eligible, txy_fst, txy_snd]
      rw [if_neg h1, if_neg h2]
      have hcond : 0 ≤ (if min k ((whereTrue stR.elig).length : ℤ) - 1 < 0 then
            min k ((whereTrue stR.elig).length : ℤ) - 1 +
              ((whereTrue stR.elig).length : ℤ)
            else min k ((whereTrue stR.elig).length : ℤ) - 1) ∧
          (if min k ((whereTrue stR.elig).length : ℤ) - 1 < 0 then
            min k ((whereTrue stR.elig).length : ℤ) - 1 +
              ((whereTrue stR.elig).length : ℤ)
            else min k ((whereTrue stR.elig).length : ℤ) - 1) <
            ((whereTrue stR.elig).length : ℤ) := by
        rw [hmin, if_pos (by omega : k - 1 < 0)]
        omega
      rw [argpartition_ok_of_len (List.length_map _ _) hcond]
      refine ⟨_, rfl, ?_⟩
      rw [List.length_map, pick_length, length_pySlice, hmin]
      rw [if_pos hk, length_argsort, List.length_map]
      omega
    · intro hle
      simp only [ResultsIndex.nearest_eligible, txy_fst, txy_snd]
      rw [if_neg h1, if_neg h2]
      have hcond : ¬(0 ≤ (if min k ((whereTrue stR.elig).length : ℤ) - 1 < 0 then
            min k ((whereTrue stR.elig).length : ℤ) - 1 +
              ((whereTrue stR.elig).length : ℤ)
            else min k ((whereTrue stR.elig).length : ℤ) - 1) ∧
          (if min k ((whereTrue stR.elig).length : ℤ) - 1 < 0 then
            min k ((whereTrue stR.elig).length : ℤ) - 1 +
              ((whereTrue stR.elig).length : ℤ)
            else min k ((whereTrue stR.elig).length : ℤ) - 1) <
            ((whereTrue stR.elig).length : ℤ)) := by
        rw [hmin, if_pos (by omega : k - 1 < 0)]
        omega
      rw [argpartition_error_of_len (List.length_map _ _) hcond]

/-- C3 (amended): for every well-formed index state and every k ≥ 0,
    `nearest_eligible` succeeds (never an error) and returns
    min(k, eligible_count) records, drawn from eligible row indices and
    ordered by ascending squared PLANAR distance to the target (the ranking
    key the code actually sorts by); when the index is not ready, has zero
    rows, or has zero eligible rows it returns the empty list. -/
theorem C3_nearest_eligible_k_semantics (st : ResultsIndexState) (lat lon : ℝ)
    (k : ℤ) (hx : st.x.length = st.elig.length)
    (hy : st.y.length = st.elig.length) (hk : 0 ≤ k) :
    ∃ ix : List ℕ,
      ResultsIndex.nearest_eligible st lat lon k =
        Except.ok (ix.map (mkEligRecord st lat lon)) ∧
      (st.ready = true → st.addr.length ≠ 0 →
        ix.length = min k.toNat st.eligible_count) ∧
      ((st.ready = false ∨ st.addr.length = 0 ∨ st.eligible_count = 0) →
        ix = []) ∧
      ix.Pairwise (fun a b => d2At st lat lon a ≤ d2At st lat lon b) ∧
      (∀ i ∈ ix, i < st.elig.length ∧ st.elig.getD i false = true) := by
  simp only [ResultsIndex.nearest_eligible, txy_fst, txy_snd]
  by_cases h1 : st.ready = false ∨ st.addr.length = 0
  · rw [if_pos h1]
    refine ⟨[], rfl, ?_, fun _ => rfl, List.Pairwise.nil, by simp⟩
    intro hready haddr
    rcases h1 with h | h
    · rw [hready] at h
      cases h
    · exact absurd h haddr
  · rw [if_neg h1]
    by_cases h2 : (whereTrue st.elig).length = 0
    · rw [if_pos h2]
      refine ⟨[], rfl, ?_, fun _ => rfl, List.Pairwise.nil, by simp⟩
      intro _ _
      have he : st.eligible_count = 0 := by
        rw [ResultsIndexState.eligible_count, ← length_whereTrue]
        exact h2
      simp [he]
    · rw [if_neg h2]
      have hE : 1 ≤ (whereTrue st.elig).length := Nat.one_le_iff_ne_zero.2 h2
      split
      · next e heq =>
        exfalso
        have hcond := argpartition_cond_of_nonneg hE hk
        rw [argpartition_ok_of_len (List.length_map _ _) hcond] at heq
        exact Except.noConfusion heq
      · next perm heq =>
        have hperm := argpartition_eq_ok heq
        subst hperm
        have hpart : ∀ m ∈ pySlice (argsort ((whereTrue st.elig).map
            (fun i => (List.zipWith (fun xi yi =>
              (xi - toX lon) ^ 2 + (yi - toY lat) ^ 2) st.x st.y).getD i 0)))
            (min k ((whereTrue st.elig).length : ℤ)),
            m < (whereTrue st.elig).length := by
          intro m hm
          have hm2 := mem_argsort.1 (mem_pySlice hm)
          simpa using hm2
        refine ⟨_, rfl, ?_, ?_, ?_, ?_⟩
        · intro _ _
          rw [pick_length, length_pySlice]
          have hk2 : ¬(min k ((whereTrue st.elig).length : ℤ) < 0) :=
            not_lt.2 (le_min hk (Int.natCast_nonneg _))
          rw [if_neg hk2]
          rw [length_argsort, List.length_map, length_whereTrue]
          rw [ResultsIndexState.eligible_count]
          have hc1 : 1 ≤ List.count true st.elig := by
            rw [← length_whereTrue]
            exact hE
          rw [← length_whereTrue] at hc1 ⊢
          omega
        · intro h3
          exfalso
          rcases h3 with h | h | h
          · exact h1 (Or.inl h)
          · exact h1 (Or.inr h)
          · rw [ResultsIndexState.eligible_count, ← length_whereTrue] at h
            exact h2 h
        · refine pairwise_of_imp_mem ?_ (pick_pairwise hpart)
          intro a b ha hb hab
          have haI := mem_whereTrue.1 (pick_mem hpart ha)
          have hbI := mem_whereTrue.1 (pick_mem hpart hb)
          rw [getD_d2_eq_d2At (hx ▸ haI.1) (hy ▸ haI.1),
            getD_d2_eq_d2At (hx ▸ hbI.1) (hy ▸ hbI.1)] at hab
          exact hab
        · intro i hi
          exact mem_whereTrue.1 (pick_mem hpart hi)

/-- C4: `nearest_eligible` never returns a row whose eligibility flag is
    false — every record it returns is built from a row index whose `elig`
    entry is true (so an ineligible row is never chosen, however close), and
    the record carries `eligible = true`. -/
theorem C4_nearest_eligible_only_eligible_rows (st : ResultsIndexState)
    (lat lon : ℝ) (k : ℤ) (recs : List EligRecord)
    (h : ResultsIndex.nearest_eligible st lat lon k = Except.ok recs) :
    ∀ r ∈ recs, r.eligible = true ∧
      ∃ i, i < st.elig.length ∧ st.elig.getD i false = true ∧
        r = mkEligRecord st lat lon i := by
  simp only [ResultsIndex.nearest_eligible, txy_fst, txy_snd] at h
  by_cases h1 : st.ready = false ∨ st.addr.length = 0
  · rw [if_pos h1] at h
    injection h with h
    subst h
    intro r hr
    exact absurd hr (List.not_mem_nil r)
  · rw [if_neg h1] at h
    by_cases h2 : (whereTrue st.elig).length = 0
    · rw [if_pos h2] at h
      injection h with h
      subst h
      intro r hr
      exact absurd hr (List.not_mem_nil r)
    · rw [if_neg h2] at h
      split at h
      · cases h
      · next perm heq =>
        have hperm := argpartition_eq_ok heq
        subst hperm
        injection h with h
        subst h
        intro r hr
        rcases List.mem_map.1 hr with ⟨i, hi, rfl⟩
        have hpart : ∀ m ∈ pySlice (argsort ((whereTrue st.elig).map
            (fun i => (List.zipWith (fun xi yi =>
              (xi - toX lon) ^ 2 + (yi - toY lat) ^ 2) st.x st.y).getD i 0)))
            (min k ((whereTrue st.elig).length : ℤ)),
            m < (whereTrue st.elig).length := by
          intro m hm
          have hm2 := mem_argsort.1 (mem_pySlice hm)
          simpa using hm2
        have hmem := pick_mem hpart hi
        rcases mem_whereTrue.1 hmem with ⟨hlt, htrue⟩
        exact ⟨rfl, i, hlt, htrue, rfl⟩

/-- C10: the great-circle distance uses Earth radius 6371.0088 km and
    satisfies `haversine(a,b) = haversine(b,a) ≥ 0` for all point pairs and
    `haversine(p,p) = 0` for every point. -/
theorem C10_haversine_radius_symm_nonneg_refl :
    (∀ lat1 lon1 lat2 lon2 : ℝ,
      haversine_km lat1 lon1 lat2 lon2 =
        2 * 6371.0088 * Real.arcsin (Real.sqrt (havA lat1 lon1 lat2 lon2))) ∧
    (∀ lat1 lon1 lat2 lon2 : ℝ,
      haversine_km lat1 lon1 lat2 lon2 = haversine_km lat2 lon2 lat1 lon1) ∧
    (∀ lat1 lon1 lat2 lon2 : ℝ, 0 ≤ haversine_km lat1 lon1 lat2 lon2) ∧
    (∀ lat lon : ℝ, haversine_km lat lon lat lon = 0) := by
  refine ⟨fun _ _ _ _ => rfl, ?_, ?_, ?_⟩
  · intro lat1 lon1 lat2 lon2
    rw [haversine_km_eq, haversine_km_eq, havA_symm]
  · intro lat1 lon1 lat2 lon2
    rw [haversine_km_eq]
    have h1 : (0 : ℝ) ≤ 2 * 6371.0088 := by norm_num
    exact mul_nonneg h1 (Real.arcsin_nonneg.2 (Real.sqrt_nonneg _))
  · intro lat lon
    rw [haversine_km_eq]
    have h0 : havA lat lon lat lon = 0 := by
      unfold havA
      simp
    rw [h0, Real.sqrt_zero, Real.arcsin_zero, mul_zero]

end


/-- Evaluation: a two-element argsort when the first key is not larger. -/
lemma sortByKey_pair (key : ℕ → ℝ) (h : key 0 ≤ key 1) :
    sortByKey key [0, 1] = [0, 1] := by
  simp [sortByKey, insertByKey, h]

lemma argsort_pair {a b : ℝ} (h : a ≤ b) : argsort [a, b] = [0, 1] := by
  unfold argsort
  rw [show ([a, b] : List ℝ).length = 2 from rfl,
    show List.range 2 = [0, 1] from rfl]
  exact sortByKey_pair _ h

lemma argsort_single (a : ℝ) : argsort [a] = [0] := by
  unfold argsort
  rw [show ([a] : List ℝ).length = 1 from rfl,
    show List.range 1 = [0] from rfl]
  simp [sortByKey, insertByKey]

/-! ## Evaluation of the example queries -/

/-- The planar comparison fact in the exact shape the query computation
    produces after simplification. -/
lemma planar_keyA_le_keyB : (toX 100 - toX 0) ^ 2 ≤ (toY 85 - toY 0) ^ 2 := by
  nlinarith [planar_A_lt_B]

/-- Querying the two-row example with k = 2 returns row A (planar-nearer)
    before row B. -/
lemma nearest_stA_two :
    ResultsIndex.nearest_eligible stA 0 0 2 =
      Except.ok [mkEligRecord stA 0 0 0, mkEligRecord stA 0 0 1] := by
  have hAB2 := planar_keyA_le_keyB
  have hw : whereTrue [true, true] = [0, 1] := by decide
  have hT : ((2 : ℤ)).toNat = 2 := rfl
  simp only [ResultsIndex.nearest_eligible, txy_fst, txy_snd, stA, hw,
    List.zipWith_cons_cons, List.zipWith_nil_right, List.zipWith_nil_left,
    List.map_cons, List.map_nil, List.getD_cons_zero, List.getD_cons_succ,
    List.length_cons, List.length_nil, argpartition, pySlice, mkEligRecord]
  norm_num [argsort_pair hAB2, List.take_succ_cons, List.take_zero,
    List.take_nil, hT, Function.comp_apply,
    List.map_cons, List.map_nil, List.getD_cons_zero, List.getD_cons_succ,
    Function.comp]
  refine ⟨?_, ?_⟩ <;> simp [mkEligRecord]

/-- Querying the two-row example with k = -1 silently returns one data row:
    numpy's negative-index semantics, not an error. -/
lemma nearest_stA_negone :
    ResultsIndex.nearest_eligible stA 0 0 (-1) =
      Except.ok [mkEligRecord stA 0 0 0] := by
  have hAB2 := planar_keyA_le_keyB
  have hw : whereTrue [true, true] = [0, 1] := by decide
  have hT : ((1 : ℤ)).toNat = 1 := rfl
  simp only [ResultsIndex.nearest_eligible, txy_fst, txy_snd, stA, hw,
    List.zipWith_cons_cons, List.zipWith_nil_right, List.zipWith_nil_left,
    List.map_cons, List.map_nil, List.getD_cons_zero, List.getD_cons_succ,
    List.length_cons, List.length_nil, argpartition, pySlice, mkEligRecord]
  norm_num [argsort_pair hAB2, argsort_single, List.take_succ_cons,
    List.take_zero, List.take_nil, hT, Function.comp_apply,
    List.map_cons, List.map_nil, List.getD_cons_zero, List.getD_cons_succ,
    Function.comp]
  simp [mkEligRecord]

/-- Querying the one-row example with k = 1. -/
lemma nearest_stD_one :
    ResultsIndex.nearest_eligible stD 0 0 1 =
      Except.ok [mkEligRecord stD 0 0 0] := by
  have hw : whereTrue [true] = [0] := by decide
  have hT : ((1 : ℤ)).toNat = 1 := rfl
  simp only [ResultsIndex.nearest_eligible, txy_fst, txy_snd, stD, hw,
    List.zipWith_cons_cons, List.zipWith_nil_right, List.zipWith_nil_left,
    List.map_cons, List.map_nil, List.getD_cons_zero, List.getD_cons_succ,
    List.length_cons, List.length_nil, argpartition, pySlice, mkEligRecord]
  norm_num [argsort_single, List.take_succ_cons, List.take_zero,
    List.take_nil, hT, Function.comp_apply,
    List.map_cons, List.map_nil, List.getD_cons_zero, List.getD_cons_succ,
    Function.comp]
  simp [mkEligRecord]

/-- `InputIndex.nearest` with a negative k on the loaded example: the empty
    list, with no error signal of any kind. -/
lemma nearest_stAI_negone : InputIndex.nearest stAI 0 0 (-1) = [] := by
  simp only [InputIndex.nearest, txy_fst, txy_snd, stAI,
    List.zipWith_cons_cons, List.zipWith_nil_right, List.zipWith_nil_left,
    List.length_cons, List.length_nil]
  norm_num

/-! ## Further helper lemmas -/

lemma nearest_eligible_of_not_ready {st : ResultsIndexState}
    (h : st.ready = false) (lat lon : ℝ) (k : ℤ) :
    ResultsIndex.nearest_eligible st lat lon k = Except.ok [] := by
  simp only [ResultsIndex.nearest_eligible]
  rw [if_pos (Or.inl h)]

lemma nearest_input_of_not_ready {st : InputIndexState}
    (h : st.ready = false) (lat lon : ℝ) (k : ℤ) :
    InputIndex.nearest st lat lon k = [] := by
  simp only [InputIndex.nearest]
  rw [if_pos (Or.inl h)]

lemma length_filterMap_eq {β : Type} (rows : List CsvRow) (f : CsvRow → Option β)
    (g : CsvRow → Bool) (hfg : ∀ row, (f row).isSome = g row) :
    (rows.filterMap f).length =
      rows.length - (rows.filter (fun r => !(g r))).length := by
  induction rows with
  | nil => rfl
  | cons r t ih =>
    have hle := List.length_filter_le (fun r => !(g r)) t
    cases hf : f r with
    | none =>
      have hg : g r = false := by
        rw [← hfg r, hf]
        rfl
      simp [List.filterMap_cons, hf, List.filter_cons, hg, ih]
    | some b =>
      have hg : g r = true := by
        rw [← hfg r, hf]
        rfl
      simp [List.filterMap_cons, hf, List.filter_cons, hg, ih]
      omega

/-! ## Remaining claim theorems -/

/-- C6 (amended): every record returned by `nearest_eligible` carries in
    `distance_km` the EXACT haversine distance between the query point and
    the row coordinates, unrounded; the 3-decimal rounding happens in the
    websocket serialisation layer (app.py line 496). -/
theorem C6_distance_exact_haversine_unrounded (st : ResultsIndexState)
    (lat lon : ℝ) (k : ℤ) (recs : List EligRecord)
    (h : ResultsIndex.nearest_eligible st lat lon k = Except.ok recs) :
    ∀ r ∈ recs, r.distance_km = haversine_km lat lon r.lat r.lon ∧
      websocket_distance_field r = pyRound3 (haversine_km lat lon r.lat r.lon) := by
  simp only [ResultsIndex.nearest_eligible, txy_fst, txy_snd] at h
  by_cases h1 : st.ready = false ∨ st.addr.length = 0
  · rw [if_pos h1] at h
    injection h with h
    subst h
    intro r hr
    exact absurd hr (List.not_mem_nil r)
  · rw [if_neg h1] at h
    by_cases h2 : (whereTrue st.elig).length = 0
    · rw [if_pos h2] at h
      injection h with h
      subst h
      intro r hr
      exact absurd hr (List.not_mem_nil r)
    · rw [if_neg h2] at h
      split at h
      · cases h
      · next perm heq =>
        injection h with h
        subst h
        intro r hr
        rcases List.mem_map.1 hr with ⟨i, _, rfl⟩
        exact ⟨rfl, rfl⟩

/-- C2 counterexample: on loaded two-row indexes, a negative k is not
    rejected with a programmer-error signal: `InputIndex.nearest` returns the
    empty list (the no-data result) and `ResultsIndex.nearest_eligible`
    returns a data row. -/
theorem C2_counterexample_negative_k_silent :
    InputIndex.nearest exStI 0 0 (-1) = [] ∧
    ResultsIndex.nearest_eligible exSt 0 0 (-1) =
      Except.ok [mkEligRecord stA 0 0 0] := by
  constructor
  · rw [exStI_eq]
    exact nearest_stAI_negone
  · rw [exSt_eq]
    exact nearest_stA_negone

/-- C3 counterexample: the two rows come back ordered by the planar
    approximation, which here is the OPPOSITE of ascending haversine
    distance: the second record is strictly closer than the first. -/
theorem C3_counterexample_not_sorted_by_haversine :
    ResultsIndex.nearest_eligible exSt 0 0 2 =
      Except.ok [mkEligRecord stA 0 0 0, mkEligRecord stA 0 0 1] ∧
    (mkEligRecord stA 0 0 1).distance_km <
      (mkEligRecord stA 0 0 0).distance_km := by
  constructor
  · rw [exSt_eq]
    exact nearest_stA_two
  · have h0 : (mkEligRecord stA 0 0 0).distance_km = haversine_km 0 0 0 100 := by
      simp [mkEligRecord, stA]
    have h1 : (mkEligRecord stA 0 0 1).distance_km = haversine_km 0 0 85 0 := by
      simp [mkEligRecord, stA]
    rw [h0, h1, hav_equator_east 100 (by norm_num) (by norm_num),
      hav_north 85 (by norm_num) (by norm_num)]
    nlinarith [Real.pi_pos]

/-- C6 counterexample: the record the query returns carries an UNROUNDED
    haversine value — rounding it to 3 decimals would change it (the distance
    here is an irrational multiple of pi). -/
theorem C6_counterexample_distance_not_rounded :
    ResultsIndex.nearest_eligible exSt6 0 0 1 =
      Except.ok [mkEligRecord stD 0 0 0] ∧
    (mkEligRecord stD 0 0 0).distance_km ≠
      pyRound3 (mkEligRecord stD 0 0 0).distance_km := by
  constructor
  · rw [exSt6_eq]
    exact nearest_stD_one
  · have hd : (mkEligRecord stD 0 0 0).distance_km = haversine_km 0 0 0 60 := by
      simp [mkEligRecord, stD]
    have hval : haversine_km 0 0 0 60 = (2123.6696 : ℝ) * Real.pi := by
      rw [hav_equator_east 60 (by norm_num) (by norm_num)]
      ring
    have hirr : Irrational ((2123.6696 : ℝ) * Real.pi) := by
      have hq : ((2123.6696 : ℚ) : ℝ) = (2123.6696 : ℝ) := by norm_num
      rw [← hq]
      exact irrational_pi.rat_mul (by norm_num)
    rw [hd, hval]
    intro hcontra
    rw [irrational_iff_ne_rational] at hirr
    refine hirr (round ((2123.6696 : ℝ) * Real.pi * 1000)) 1000 ?_
    rw [pyRound3] at hcontra
    push_cast
    linarith

/-- C7 (amended): a row is included by the load loops if and only if its
    stripped address is non-empty AND both lat and lon are accepted by
    Python's float() — which also accepts the non-finite spellings
    "inf"/"infinity"/"nan"; failing rows are silently dropped, so a fresh
    load of N rows of which M fail yields exactly N-M rows (similarly for
    any prior state when at least one row passes, and for `InputIndex`
    always). -/
theorem C7_row_filtering_amended :
    (∀ row : CsvRow, (parseResultRow row).isSome = rowPasses row ∧
      (parseInputRow row).isSome = rowPasses row) ∧
    (∀ rows : List CsvRow,
      (ResultsIndex.load initResultsState (some rows)).row_count =
        rows.length - (rows.filter (fun r => !(rowPasses r))).length) ∧
    (∀ (st : ResultsIndexState) (rows : List CsvRow),
      rows.filterMap parseResultRow ≠ [] →
      (ResultsIndex.load st (some rows)).row_count =
        rows.length - (rows.filter (fun r => !(rowPasses r))).length) ∧
    (∀ (st : InputIndexState) (rows : List CsvRow),
      (InputIndex.load st (some rows)).row_count =
        rows.length - (rows.filter (fun r => !(rowPasses r))).length) := by
  have hfgR : ∀ row : CsvRow, (parseResultRow row).isSome = rowPasses row := by
    intro row
    simp only [parseResultRow, rowPasses]
    by_cases ha : pyStrip (row.address.getD "") = ""
    · simp [ha]
    · cases hla : pyFloat? row.lat <;> cases hlo : pyFloat? row.lon <;>
        simp [ha, hla, hlo]
  have hfgI : ∀ row : CsvRow, (parseInputRow row).isSome = rowPasses row := by
    intro row
    simp only [parseInputRow, rowPasses]
    by_cases ha : pyStrip (row.address.getD "") = ""
    · simp [ha]
    · cases hla : pyFloat? row.lat <;> cases hlo : pyFloat? row.lon <;>
        simp [ha, hla, hlo]
  refine ⟨fun row => ⟨hfgR row, hfgI row⟩, ?_, ?_, ?_⟩
  · intro rows
    have h := length_filterMap_eq rows parseResultRow rowPasses hfgR
    by_cases hp : rows.filterMap parseResultRow = []
    · rw [hp] at h
      have hload : ResultsIndex.load initResultsState (some rows) =
          { initResultsState with ready := false } := by
        simp only [ResultsIndex.load]
        rw [if_pos hp]
      rw [hload]
      exact h
    · simp only [ResultsIndex.load]
      rw [if_neg hp]
      simp only [ResultsIndexState.row_count]
      rw [List.length_map]
      exact h
  · intro st rows hp
    have h := length_filterMap_eq rows parseResultRow rowPasses hfgR
    simp only [ResultsIndex.load]
    rw [if_neg hp]
    simp only [ResultsIndexState.row_count]
    rw [List.length_map]
    exact h
  · intro st rows
    have h := length_filterMap_eq rows parseInputRow rowPasses hfgI
    by_cases hp : rows.filterMap parseInputRow = []
    · rw [hp] at h
      have hload : InputIndex.load st (some rows) = initInputState := by
        simp only [InputIndex.load]
        rw [if_pos hp]
      rw [hload]
      exact h
    · simp only [InputIndex.load]
      rw [if_neg hp]
      simp only [InputIndexState.row_count]
      rw [List.length_map]
      exact h

/-- C7 counterexample: the claim requires rows whose coordinates do not
    parse as FINITE numbers to be dropped, but a row with latitude "inf" is
    loaded: float("inf") succeeds in Python, so the code counts it. -/
theorem C7_counterexample_inf_accepted :
    parsesFinite rowInf.lat = false ∧
    pyFloat? rowInf.lat = some PyFloat.inf ∧
    (ResultsIndex.load initResultsState (some [rowInf])).row_count = 1 := by
  refine ⟨by decide, by decide, ?_⟩
  have hp : [rowInf].filterMap parseResultRow =
      [{ addr := "Inf Street 1", la := PyFloat.inf, lo := PyFloat.finite 0,
         elig := true, status := "", latency := "", checked := "" }] := by
    decide
  simp only [ResultsIndex.load, hp]
  rw [if_neg (List.cons_ne_nil _ _)]
  simp [ResultsIndexState.row_count]

/-- C8 (amended): a missing source fully resets either index, and a source
    with zero valid rows fully resets `InputIndex`; but `ResultsIndex` only
    clears `ready` and KEEPS its previous arrays (so its row count need not
    drop to 0).  In every one of these states `is_ready()` is false and the
    nearest queries return an empty result without error. -/
theorem C8_load_reset_amended (stR : ResultsIndexState) (stI : InputIndexState)
    (rows : List CsvRow) :
    ResultsIndex.load stR none = initResultsState ∧
    InputIndex.load stI none = initInputState ∧
    (rows.filterMap parseInputRow = [] →
      InputIndex.load stI (some rows) = initInputState) ∧
    (rows.filterMap parseResultRow = [] →
      (ResultsIndex.load stR (some rows)).is_ready = false ∧
      (ResultsIndex.load stR (some rows)).addr = stR.addr) ∧
    (∀ lat lon : ℝ, ∀ k : ℤ,
      ResultsIndex.nearest_eligible (ResultsIndex.load stR none) lat lon k =
        Except.ok []) ∧
    (rows.filterMap parseResultRow = [] → ∀ lat lon : ℝ, ∀ k : ℤ,
      ResultsIndex.nearest_eligible (ResultsIndex.load stR (some rows))
        lat lon k = Except.ok []) ∧
    (∀ lat lon : ℝ, ∀ k : ℤ,
      InputIndex.nearest (InputIndex.load stI none) lat lon k = []) := by
  have hRnone : ResultsIndex.load stR none = initResultsState := rfl
  have hInone : InputIndex.load stI none = initInputState := rfl
  refine ⟨hRnone, hInone, ?_, ?_, ?_, ?_, ?_⟩
  · intro hp
    simp only [InputIndex.load]
    rw [if_pos hp]
  · intro hp
    have hload : ResultsIndex.load stR (some rows) =
        { stR with ready := false } := by
      simp only [ResultsIndex.load]
      rw [if_pos hp]
    rw [hload]
    exact ⟨rfl, rfl⟩
  · intro lat lon k
    rw [hRnone]
    exact nearest_eligible_of_not_ready rfl lat lon k
  · intro hp lat lon k
    have hload : ResultsIndex.load stR (some rows) =
        { stR with ready := false } := by
      simp only [ResultsIndex.load]
      rw [if_pos hp]
    rw [hload]
    exact nearest_eligible_of_not_ready rfl lat lon k
  · intro lat lon k
    rw [hInone]
    exact nearest_input_of_not_ready rfl lat lon k

/-- C8 counterexample: after loading a two-row dataset and then reloading
    from an existing source whose rows all fail validation, the ResultsIndex
    is NOT reset to the empty state: `row_count` stays 2 (stale arrays kept),
    though `is_ready` is false. -/
theorem C8_counterexample_stale_rows :
    (ResultsIndex.load exSt (some [rowEmpty])).is_ready = false ∧
    (ResultsIndex.load exSt (some [rowEmpty])).row_count = 2 ∧
    (ResultsIndex.load exSt (some [rowEmpty])).row_count ≠ 0 := by
  have hp : [rowEmpty].filterMap parseResultRow = [] := by decide
  have hload : ResultsIndex.load exSt (some [rowEmpty]) =
      { exSt with ready := false } := by
    simp only [ResultsIndex.load]
    rw [if_pos hp]
  rw [hload]
  have hc : exSt.addr.length = 2 := by
    rw [exSt_eq]
    rfl
  exact ⟨rfl, hc, by rw [show ({ exSt with ready := false } :
    ResultsIndexState).row_count = exSt.addr.length from rfl, hc]; omega⟩

/-! ## Witnesses -/

theorem C2_witness :
    InputIndex.nearest exStI 0 0 (-1) = [] ∧
    (∃ recs, ResultsIndex.nearest_eligible exSt 0 0 (-1) = Except.ok recs ∧
      recs.length = ((exSt.eligible_count : ℤ) + (-1)).toNat) := by
  have h := C2_negative_k_not_failfast exSt exStI 0 0 (-1) (by norm_num)
  refine ⟨h.1, ?_⟩
  have h2 := h.2 (by rw [exSt_eq]; rfl)
    (by rw [exSt_eq]; decide) (by rw [exSt_eq]; decide)
  exact h2.1 (by rw [exSt_eq]; decide)

theorem C3_witness :
    ∃ ix : List ℕ,
      ResultsIndex.nearest_eligible exSt 0 0 2 =
        Except.ok (ix.map (mkEligRecord exSt 0 0)) ∧
      (exSt.ready = true → exSt.addr.length ≠ 0 →
        ix.length = min (2 : ℤ).toNat exSt.eligible_count) ∧
      ((exSt.ready = false ∨ exSt.addr.length = 0 ∨ exSt.eligible_count = 0) →
        ix = []) ∧
      ix.Pairwise (fun a b => d2At exSt 0 0 a ≤ d2At exSt 0 0 b) ∧
      (∀ i ∈ ix, i < exSt.elig.length ∧ exSt.elig.getD i false = true) :=
  C3_nearest_eligible_k_semantics exSt 0 0 2
    (by rw [exSt_eq]; rfl) (by rw [exSt_eq]; rfl) (by norm_num)

theorem C4_witness :
    (mkEligRecord stA 0 0 0).eligible = true ∧
    ∃ i, i < exSt.elig.length ∧ exSt.elig.getD i false = true ∧
      mkEligRecord stA 0 0 0 = mkEligRecord exSt 0 0 i :=
  C4_nearest_eligible_only_eligible_rows exSt 0 0 2
    [mkEligRecord stA 0 0 0, mkEligRecord stA 0 0 1]
    (by rw [exSt_eq]; exact nearest_stA_two)
    (mkEligRecord stA 0 0 0) (List.mem_cons_self _ _)

theorem C6_witness :
    (mkEligRecord stD 0 0 0).distance_km =
      haversine_km 0 0 (mkEligRecord stD 0 0 0).lat
        (mkEligRecord stD 0 0 0).lon ∧
    websocket_distance_field (mkEligRecord stD 0 0 0) =
      pyRound3 (haversine_km 0 0 (mkEligRecord stD 0 0 0).lat
        (mkEligRecord stD 0 0 0).lon) :=
  C6_distance_exact_haversine_unrounded exSt6 0 0 1 [mkEligRecord stD 0 0 0]
    (by rw [exSt6_eq]; exact nearest_stD_one)
    (mkEligRecord stD 0 0 0) (List.mem_cons_self _ _)

theorem C7_witness :
    (parseResultRow rowEmpty).isSome = rowPasses rowEmpty ∧
    (ResultsIndex.load initResultsState (some [rowA, rowEmpty])).row_count = 1 ∧
    (ResultsIndex.load exSt (some [rowA, rowEmpty])).row_count = 1 ∧
    (InputIndex.load exStI (some [rowA, rowEmpty])).row_count = 1 := by
  refine ⟨(C7_row_filtering_amended.1 rowEmpty).1, ?_, ?_, ?_⟩
  · rw [C7_row_filtering_amended.2.1 [rowA, rowEmpty]]
    decide
  · rw [C7_row_filtering_amended.2.2.1 exSt [rowA, rowEmpty] (by decide)]
    decide
  · rw [C7_row_filtering_amended.2.2.2 exStI [rowA, rowEmpty]]
    decide

theorem C8_witness :
    ResultsIndex.load exSt none = initResultsState ∧
    InputIndex.load exStI (some [rowEmpty]) = initInputState ∧
    (ResultsIndex.load exSt (some [rowEmpty])).is_ready = false ∧
    ResultsIndex.nearest_eligible (ResultsIndex.load exSt none) 0 0 5 =
      Except.ok [] ∧
    InputIndex.nearest (InputIndex.load exStI none) 0 0 5 = [] := by
  have h := C8_load_reset_amended exSt exStI [rowEmpty]
  exact ⟨h.1, h.2.2.1 (by decide), (h.2.2.2.1 (by decide)).1,
    h.2.2.2.2.1 0 0 5, h.2.2.2.2.2.2 0 0 5⟩

end FiveG
